import Mathlib

/-!
Shallow embedding of the CSS selector builder from `src/05-objects-tasks.js`
(the `Check` class and the `cssSelectorBuilder` facade).

JavaScript mutation is modelled by explicit state passing: every
fragment-adding method takes the builder state and returns the state as it
is when the method finishes or throws, paired with `Option String`, the
message of the raised `Error` (`none` when the call returns normally).
Returning the state even on a throw lets the theorems talk about which
fields a failing call had already mutated, exactly as the JS object would
show them afterwards.
-/

/-- Builder state: the fields set up by `constructor(val = '')` of the
`Check` class (`test`, `id1`, `element1`, `pseudoElement1`, `order`). -/
structure Check where
  test : String
  id1 : Bool
  element1 : Bool
  pseudoElement1 : Bool
  order : List Nat
deriving DecidableEq, Repr

/-- `new Check(val)`: `test` starts as `val`, the three uniqueness flags as
`false`, `order` as the empty array. -/
def Check.new (val : String) : Check :=
  { test := val, id1 := false, element1 := false, pseudoElement1 := false, order := [] }

/-- `new Check()` — the constructor's default argument is `val = ''`. -/
def Check.empty : Check := Check.new ""

/-- Message of the `Error` thrown on a duplicate element / id /
pseudo-element fragment (source lines 129, 140, 172; identical string at
all three sites). -/
def dupMsg : String :=
  "Element, id and pseudo-element should not occur more then one time inside the selector"

/-- Message of the `Error` thrown by `checkOrder()` (source line 184). -/
def orderMsg : String :=
  "Selector parts should be arranged in the following order: element, id, class, attribute, pseudo-class, pseudo-element"

/-- `checkOrder()` runs `forEach` over `this.order`, comparing each entry
with its successor (`el > this.order[i + 1]`); for the last entry the
successor is `undefined` and the JS comparison is `false`, so the scan is
exactly an adjacent-pairs check, throwing at the first strict decrease. -/
def checkOrderAux : List Nat → Except String Unit
  | [] => Except.ok ()
  | [_] => Except.ok ()
  | a :: b :: t =>
    if b < a then Except.error orderMsg
    else checkOrderAux (b :: t)

/-- `checkOrder()` method: scans `this.order`. -/
def Check.checkOrder (c : Check) : Except String Unit := checkOrderAux c.order

/-- `element(value)`: throws the duplicate message when `this.element1` is
already set (before any mutation); otherwise appends `value` to `test`,
sets `element1`, pushes rank `0` and runs `checkOrder()`. -/
def Check.element (c : Check) (value : String) : Check × Option String :=
  if c.element1 then (c, some dupMsg)
  else
    let c' : Check := { c with test := c.test ++ value, element1 := true, order := c.order ++ [0] }
    match c'.checkOrder with
    | Except.ok _ => (c', none)
    | Except.error m => (c', some m)

/-- `id(value)`: duplicate check on `this.id1` first, then appends
`'#' + value`, sets `id1`, pushes rank `1`, runs `checkOrder()`. -/
def Check.id (c : Check) (value : String) : Check × Option String :=
  if c.id1 then (c, some dupMsg)
  else
    let c' : Check := { c with test := c.test ++ "#" ++ value, id1 := true, order := c.order ++ [1] }
    match c'.checkOrder with
    | Except.ok _ => (c', none)
    | Except.error m => (c', some m)

/-- `class(value)`: appends `'.' + value`, pushes rank `2`, runs
`checkOrder()`; no uniqueness flag. -/
def Check.«class» (c : Check) (value : String) : Check × Option String :=
  let c' : Check := { c with test := c.test ++ "." ++ value, order := c.order ++ [2] }
  match c'.checkOrder with
  | Except.ok _ => (c', none)
  | Except.error m => (c', some m)

/-- `attr(value)`: appends `'[' + value + ']'`, pushes rank `3`, runs
`checkOrder()`; no uniqueness flag. -/
def Check.attr (c : Check) (value : String) : Check × Option String :=
  let c' : Check := { c with test := c.test ++ "[" ++ value ++ "]", order := c.order ++ [3] }
  match c'.checkOrder with
  | Except.ok _ => (c', none)
  | Except.error m => (c', some m)

/-- `pseudoClass(value)`: appends `':' + value`, pushes rank `4`, runs
`checkOrder()`; no uniqueness flag. -/
def Check.pseudoClass (c : Check) (value : String) : Check × Option String :=
  let c' : Check := { c with test := c.test ++ ":" ++ value, order := c.order ++ [4] }
  match c'.checkOrder with
  | Except.ok _ => (c', none)
  | Except.error m => (c', some m)

/-- `pseudoElement(value)`: duplicate check on `this.pseudoElement1` first,
then appends `'::' + value`, sets `pseudoElement1`, pushes rank `5`, runs
`checkOrder()`. -/
def Check.pseudoElement (c : Check) (value : String) : Check × Option String :=
  if c.pseudoElement1 then (c, some dupMsg)
  else
    let c' : Check :=
      { c with test := c.test ++ "::" ++ value, pseudoElement1 := true, order := c.order ++ [5] }
    match c'.checkOrder with
    | Except.ok _ => (c', none)
    | Except.error m => (c', some m)

/-- `stringify()`: `return this.test;` — the returned value. -/
def Check.stringify (c : Check) : String := c.test

/-- `stringify()` in full state-passing form: the method body only reads
`this.test` and assigns nothing and throws nothing, so its stateful
embedding returns the read value together with the unchanged state. -/
def Check.stringifyS (c : Check) : String × Check := (c.test, c)

namespace cssSelectorBuilder

/-- Facade `element(value)`: `new Check().element(value)`. -/
def element (value : String) : Check × Option String := Check.empty.element value

/-- Facade `id(value)`: `new Check().id(value)`. -/
def id (value : String) : Check × Option String := Check.empty.id value

/-- Facade `class(value)`: `new Check().class(value)`. -/
def «class» (value : String) : Check × Option String := Check.empty.«class» value

/-- Facade `attr(value)`: `new Check().attr(value)`. -/
def attr (value : String) : Check × Option String := Check.empty.attr value

/-- Facade `pseudoClass(value)`: `new Check().pseudoClass(value)`. -/
def pseudoClass (value : String) : Check × Option String := Check.empty.pseudoClass value

/-- Facade `pseudoElement(value)`: `new Check().pseudoElement(value)`. -/
def pseudoElement (value : String) : Check × Option String := Check.empty.pseudoElement value

/-- Facade `combine(selector1, combinator, selector2)`:
`new Check(`...`)` with the template literal
`` `${selector1.stringify()} ${combinator} ${selector2.stringify()}` ``.
The constructor performs no validation and cannot throw. -/
def combine (selector1 : Check) (combinator : String) (selector2 : Check) : Check :=
  Check.new (selector1.stringify ++ " " ++ combinator ++ " " ++ selector2.stringify)

end cssSelectorBuilder

/-- One fragment-adding call: which builder method is invoked, with which
`value` argument. -/
inductive Frag where
  | element (v : String)
  | id (v : String)
  | «class» (v : String)
  | attr (v : String)
  | pseudoClass (v : String)
  | pseudoElement (v : String)
deriving DecidableEq, Repr

/-- The rank each method pushes onto `this.order`. -/
def Frag.rank : Frag → Nat
  | .element _ => 0
  | .id _ => 1
  | .«class» _ => 2
  | .attr _ => 3
  | .pseudoClass _ => 4
  | .pseudoElement _ => 5

/-- The text each method appends to `this.test`. -/
def Frag.render : Frag → String
  | .element v => v
  | .id v => "#" ++ v
  | .«class» v => "." ++ v
  | .attr v => "[" ++ v ++ "]"
  | .pseudoClass v => ":" ++ v
  | .pseudoElement v => "::" ++ v

/-- Is this call `element(...)`? -/
def Frag.isElement : Frag → Bool
  | .element _ => true
  | _ => false

/-- Is this call `id(...)`? -/
def Frag.isId : Frag → Bool
  | .id _ => true
  | _ => false

/-- Is this call `pseudoElement(...)`? -/
def Frag.isPseudoElement : Frag → Bool
  | .pseudoElement _ => true
  | _ => false

/-- Dispatch a fragment-adding call to the corresponding method. -/
def applyFrag (c : Check) : Frag → Check × Option String
  | .element v => c.element v
  | .id v => c.id v
  | .«class» v => c.«class» v
  | .attr v => c.attr v
  | .pseudoClass v => c.pseudoClass v
  | .pseudoElement v => c.pseudoElement v

/-- Run a chain of fragment-adding calls from state `c`, stopping at the
first call that throws (the caller contract: no chaining after an error).
Returns the final state and the error of the failing call, if any. -/
def runFrags (c : Check) : List Frag → Check × Option String
  | [] => (c, none)
  | f :: fs =>
    match applyFrag c f with
    | (c', none) => runFrags c' fs
    | (c', some e) => (c', some e)

/-- Concatenation of the rendered forms of a list of fragments, in order. -/
def renderAll : List Frag → String
  | [] => ""
  | f :: fs => f.render ++ renderAll fs

/-- The pure mutation a successful (or order-violating) fragment call makes
to the state: append the rendered text, raise the method's uniqueness flag,
push the rank. -/
def pushFrag (c : Check) (f : Frag) : Check :=
  { c with
    test := c.test ++ f.render,
    element1 := c.element1 || f.isElement,
    id1 := c.id1 || f.isId,
    pseudoElement1 := c.pseudoElement1 || f.isPseudoElement,
    order := c.order ++ [f.rank] }

/-- Does this call hit the duplicate guard of its method in state `c`? -/
def dupHit (c : Check) : Frag → Bool
  | .element _ => c.element1
  | .id _ => c.id1
  | .pseudoElement _ => c.pseudoElement1
  | _ => false

/-! ### Helper lemmas -/

theorem dupMsg_ne_orderMsg : dupMsg ≠ orderMsg := by decide

/-- `checkOrder()` succeeds exactly when the recorded rank list is
non-decreasing, and otherwise throws the order message. -/
theorem checkOrderAux_eq (l : List Nat) :
    checkOrderAux l =
      if l.Chain' (· ≤ ·) then Except.ok () else Except.error orderMsg := by
  induction l with
  | nil => simp [checkOrderAux]
  | cons a t ih =>
    cases t with
    | nil => simp [checkOrderAux]
    | cons b t' =>
      by_cases h : b < a
      · have hab : ¬ a ≤ b := by omega
        simp [checkOrderAux, h, List.chain'_cons, hab]
      · have hab : a ≤ b := by omega
        simp [checkOrderAux, h, List.chain'_cons, hab, ih]

/-- Every fragment-adding method is: duplicate guard first (state
untouched on a hit), otherwise the mutation `pushFrag` followed by the
order scan on the updated rank list. -/
theorem applyFrag_eq (c : Check) (f : Frag) :
    applyFrag c f =
      if dupHit c f = true then (c, some dupMsg)
      else (pushFrag c f,
        if (c.order ++ [f.rank]).Chain' (· ≤ ·) then none else some orderMsg) := by
  cases f with
  | element v =>
    by_cases h : c.element1
    · simp [applyFrag, Check.element, dupHit, h]
    · by_cases ho : (c.order ++ [0]).Chain' (· ≤ ·) <;>
        simp [applyFrag, Check.element, Check.checkOrder, checkOrderAux_eq, dupHit, pushFrag,
          Frag.rank, Frag.render, Frag.isElement, Frag.isId, Frag.isPseudoElement,
          String.append_assoc, h, ho]
  | id v =>
    by_cases h : c.id1
    · simp [applyFrag, Check.id, dupHit, h]
    · by_cases ho : (c.order ++ [1]).Chain' (· ≤ ·) <;>
        simp [applyFrag, Check.id, Check.checkOrder, checkOrderAux_eq, dupHit, pushFrag,
          Frag.rank, Frag.render, Frag.isElement, Frag.isId, Frag.isPseudoElement,
          String.append_assoc, h, ho]
  | «class» v =>
    by_cases ho : (c.order ++ [2]).Chain' (· ≤ ·) <;>
      simp [applyFrag, Check.«class», Check.checkOrder, checkOrderAux_eq, dupHit, pushFrag,
        Frag.rank, Frag.render, Frag.isElement, Frag.isId, Frag.isPseudoElement,
        String.append_assoc, ho]
  | attr v =>
    by_cases ho : (c.order ++ [3]).Chain' (· ≤ ·) <;>
      simp [applyFrag, Check.attr, Check.checkOrder, checkOrderAux_eq, dupHit, pushFrag,
        Frag.rank, Frag.render, Frag.isElement, Frag.isId, Frag.isPseudoElement,
        String.append_assoc, ho]
  | pseudoClass v =>
    by_cases ho : (c.order ++ [4]).Chain' (· ≤ ·) <;>
      simp [applyFrag, Check.pseudoClass, Check.checkOrder, checkOrderAux_eq, dupHit, pushFrag,
        Frag.rank, Frag.render, Frag.isElement, Frag.isId, Frag.isPseudoElement,
        String.append_assoc, ho]
  | pseudoElement v =>
    by_cases h : c.pseudoElement1
    · simp [applyFrag, Check.pseudoElement, dupHit, h]
    · by_cases ho : (c.order ++ [5]).Chain' (· ≤ ·) <;>
        simp [applyFrag, Check.pseudoElement, Check.checkOrder, checkOrderAux_eq, dupHit, pushFrag,
          Frag.rank, Frag.render, Frag.isElement, Frag.isId, Frag.isPseudoElement,
          String.append_assoc, h, ho]

/-- A fragment call that returns normally performed exactly the `pushFrag`
mutation. -/
theorem applyFrag_of_ok (c : Check) (f : Frag) (h : (applyFrag c f).2 = none) :
    applyFrag c f = (pushFrag c f, none) := by
  rw [applyFrag_eq] at h ⊢
  by_cases hd : dupHit c f = true
  · simp [hd] at h
  · by_cases ho : (c.order ++ [f.rank]).Chain' (· ≤ ·)
    · simp [hd, ho]
    · simp [hd, ho] at h

/-- State after a successful chain: the rendered text is the initial text
followed by every fragment's rendered form in order, each uniqueness flag
is its initial value or-ed with the presence of the matching call, and the
rank list is extended by the ranks in call order. -/
theorem runFrags_ok_state : ∀ (fs : List Frag) (c : Check), (runFrags c fs).2 = none →
    (runFrags c fs).1 =
      { test := c.test ++ renderAll fs,
        id1 := c.id1 || fs.any Frag.isId,
        element1 := c.element1 || fs.any Frag.isElement,
        pseudoElement1 := c.pseudoElement1 || fs.any Frag.isPseudoElement,
        order := c.order ++ fs.map Frag.rank } := by
  intro fs
  induction fs with
  | nil =>
    intro c _
    simp [runFrags, renderAll, String.append_empty]
  | cons f fs ih =>
    intro c h
    cases hA : applyFrag c f with
    | mk c' e =>
      cases e with
      | none =>
        have hpush : c' = pushFrag c f := by
          have h2 := applyFrag_of_ok c f (by rw [hA])
          rw [hA] at h2
          exact (Prod.mk.injEq _ _ _ _).mp h2 |>.1
        subst hpush
        have hrest : (runFrags (pushFrag c f) fs).2 = none := by
          simpa [runFrags, hA] using h
        have hr : (runFrags c (f :: fs)).1 = (runFrags (pushFrag c f) fs).1 := by
          simp [runFrags, hA]
        rw [hr, ih (pushFrag c f) hrest]
        simp [pushFrag, renderAll, String.append_assoc, Bool.or_assoc, List.any_cons,
          List.map_cons, List.append_assoc, List.singleton_append]
      | some e =>
        exfalso
        simp [runFrags, hA] at h

/-- A chain honoring the rank order and the at-most-once constraints on
element, id and pseudo-element runs to completion without any throw. -/
theorem runFrags_valid_ok : ∀ (fs : List Frag) (c : Check),
    ((c.order ++ fs.map Frag.rank).Chain' (· ≤ ·)) →
    fs.countP (fun f => f.isElement) + c.element1.toNat ≤ 1 →
    fs.countP (fun f => f.isId) + c.id1.toNat ≤ 1 →
    fs.countP (fun f => f.isPseudoElement) + c.pseudoElement1.toNat ≤ 1 →
    (runFrags c fs).2 = none := by
  intro fs
  induction fs with
  | nil => intro c _ _ _ _; simp [runFrags]
  | cons f fs ih =>
    intro c hchain hel hid hpe
    have step_count : ∀ (p : Frag → Bool) (b : Bool),
        (f :: fs).countP p + b.toNat ≤ 1 → fs.countP p + (b || p f).toNat ≤ 1 := by
      intro p b hcount
      rw [List.countP_cons] at hcount
      cases b <;> cases hp : p f <;>
        simp only [hp, Bool.toNat, Bool.or_true, Bool.or_false, Bool.true_or, Bool.false_or,
          cond_true, cond_false, if_true, if_false] at hcount ⊢ <;> omega
    have hdup : dupHit c f = false := by
      cases f with
      | element v =>
        simp only [dupHit]
        cases hc : c.element1
        · rfl
        · rw [hc] at hel
          simp [List.countP_cons, Frag.isElement] at hel
      | id v =>
        simp only [dupHit]
        cases hc : c.id1
        · rfl
        · rw [hc] at hid
          simp [List.countP_cons, Frag.isId] at hid
      | pseudoElement v =>
        simp only [dupHit]
        cases hc : c.pseudoElement1
        · rfl
        · rw [hc] at hpe
          simp [List.countP_cons, Frag.isPseudoElement] at hpe
      | «class» v => rfl
      | attr v => rfl
      | pseudoClass v => rfl
    have hchain' : ((c.order ++ [f.rank]) ++ fs.map Frag.rank).Chain' (· ≤ ·) := by
      simpa [List.append_assoc, List.singleton_append] using hchain
    have hstep : (c.order ++ [f.rank]).Chain' (· ≤ ·) :=
      (List.chain'_append.mp hchain').1
    have hA : applyFrag c f = (pushFrag c f, none) := by
      rw [applyFrag_eq, if_neg (by simp [hdup]), if_pos hstep]
    have : (runFrags c (f :: fs)) = runFrags (pushFrag c f) fs := by
      simp [runFrags, hA]
    rw [this]
    refine ih (pushFrag c f) ?_ ?_ ?_ ?_
    · simpa [pushFrag, List.append_assoc, List.singleton_append] using hchain'
    · simpa [pushFrag, Frag.isElement] using step_count (fun f => f.isElement) c.element1 hel
    · simpa [pushFrag, Frag.isId] using step_count (fun f => f.isId) c.id1 hid
    · simpa [pushFrag, Frag.isPseudoElement] using
        step_count (fun f => f.isPseudoElement) c.pseudoElement1 hpe

/-- Starting from a state whose rank list is non-decreasing, the rank list
of the final state is non-decreasing exactly when the chain did not stop on
the out-of-order message. -/
theorem runFrags_chain_iff : ∀ (fs : List Frag) (c : Check),
    c.order.Chain' (· ≤ ·) →
    ((runFrags c fs).1.order.Chain' (· ≤ ·) ↔ (runFrags c fs).2 ≠ some orderMsg) := by
  intro fs
  induction fs with
  | nil =>
    intro c hc
    simp [runFrags, hc]
  | cons f fs ih =>
    intro c hc
    by_cases hd : dupHit c f = true
    · have hA : applyFrag c f = (c, some dupMsg) := by rw [applyFrag_eq, if_pos hd]
      simp [runFrags, hA, hc, dupMsg_ne_orderMsg]
    · by_cases ho : (c.order ++ [f.rank]).Chain' (· ≤ ·)
      · have hA : applyFrag c f = (pushFrag c f, none) := by
          rw [applyFrag_eq, if_neg hd, if_pos ho]
        have hr : runFrags c (f :: fs) = runFrags (pushFrag c f) fs := by
          simp [runFrags, hA]
        rw [hr]
        exact ih (pushFrag c f) (by simpa [pushFrag] using ho)
      · have hA : applyFrag c f = (pushFrag c f, some orderMsg) := by
          rw [applyFrag_eq, if_neg hd, if_neg ho]
        simp [runFrags, hA, pushFrag, ho]

/-! ### Claim theorems -/

/-- C1: for every chain of fragment-adding calls on one builder that keeps
the ranks non-decreasing (element < id < class < attribute < pseudo-class
< pseudo-element, equal ranks allowed) and adds element, id and
pseudo-element at most once, no call throws and `stringify()` returns
exactly the concatenation of each fragment's rendered form in the order
added — element bare, id as `#value`, class as `.value`, attribute as
`[value]`, pseudo-class as `:value`, pseudo-element as `::value` — with no
extra characters. -/
theorem valid_run_stringify (fs : List Frag)
    (horder : (fs.map Frag.rank).Chain' (· ≤ ·))
    (hel : fs.countP (fun f => f.isElement) ≤ 1)
    (hid : fs.countP (fun f => f.isId) ≤ 1)
    (hpe : fs.countP (fun f => f.isPseudoElement) ≤ 1) :
    (runFrags Check.empty fs).2 = none ∧
      (runFrags Check.empty fs).1.stringify = renderAll fs := by
  have hok : (runFrags Check.empty fs).2 = none := by
    refine runFrags_valid_ok fs Check.empty ?_ ?_ ?_ ?_
    · simpa [Check.empty, Check.new] using horder
    · simpa [Check.empty, Check.new] using hel
    · simpa [Check.empty, Check.new] using hid
    · simpa [Check.empty, Check.new] using hpe
  refine ⟨hok, ?_⟩
  rw [runFrags_ok_state fs Check.empty hok]
  simp [Check.stringify, Check.empty, Check.new, String.empty_append]

/-- C1 witness at `element('a').attr('x').pseudoClass('focus')`. -/
theorem valid_run_stringify_witness :
    (runFrags Check.empty [Frag.element "a", Frag.attr "x", Frag.pseudoClass "focus"]).2 = none ∧
      (runFrags Check.empty
          [Frag.element "a", Frag.attr "x", Frag.pseudoClass "focus"]).1.stringify
        = renderAll [Frag.element "a", Frag.attr "x", Frag.pseudoClass "focus"] :=
  valid_run_stringify [Frag.element "a", Frag.attr "x", Frag.pseudoClass "focus"]
    (by simp [Frag.rank, List.chain'_cons]) (by decide) (by decide) (by decide)

/-- C2: on any builder reached by a successful chain, calling `element`
when an element fragment was already added, `id` when an id fragment was
already added, or `pseudoElement` when a pseudo-element fragment was
already added, throws the duplicate-fragment message (which says element,
id and pseudo-element may occur at most once), no matter how many other
fragments came in between. -/
theorem duplicate_raises (fs : List Frag) (v : String)
    (hok : (runFrags Check.empty fs).2 = none) :
    (fs.any Frag.isElement = true →
      ((runFrags Check.empty fs).1.element v).2 = some dupMsg) ∧
    (fs.any Frag.isId = true →
      ((runFrags Check.empty fs).1.id v).2 = some dupMsg) ∧
    (fs.any Frag.isPseudoElement = true →
      ((runFrags Check.empty fs).1.pseudoElement v).2 = some dupMsg) := by
  rw [runFrags_ok_state fs Check.empty hok]
  refine ⟨?_, ?_, ?_⟩ <;> intro h <;>
    simp [Check.element, Check.id, Check.pseudoElement, Check.empty, Check.new, h]

/-- C2 witness: a second `id` after `id('a').class('b')`. -/
theorem duplicate_raises_witness :
    (runFrags Check.empty [Frag.id "a", Frag.«class» "b"]).2 = none ∧
    ((runFrags Check.empty [Frag.id "a", Frag.«class» "b"]).1.id "x").2 = some dupMsg :=
  ⟨by decide,
    (duplicate_raises [Frag.id "a", Frag.«class» "b"] "x" (by decide)).2.1 (by decide)⟩

/-- C5: `combine(left, combinator, right)` builds a new builder whose
`stringify()` is `left.stringify() + " " + combinator + " " +
right.stringify()`; the combinator text is interpolated without any
validation, and `combine` has no error outcome at all (its embedding is a
total function into `Check`, mirroring a constructor call that cannot
throw the duplicate or out-of-order error). -/
theorem combine_stringify (selector1 : Check) (combinator : String) (selector2 : Check) :
    (cssSelectorBuilder.combine selector1 combinator selector2).stringify
      = selector1.stringify ++ " " ++ combinator ++ " " ++ selector2.stringify := rfl

/-- C6: nested combination concatenates textually with a single-space-
padded combinator at each level, and a literal-space combinator yields the
three-space artifact between the two innermost selectors. -/
theorem combine_nested (A B C D : Check) :
    (cssSelectorBuilder.combine (cssSelectorBuilder.combine A "+" B) "~"
        (cssSelectorBuilder.combine C " " D)).stringify
      = A.stringify ++ " + " ++ B.stringify ++ " ~ " ++ C.stringify ++ "   " ++ D.stringify := by
  have h1 : ∀ s : String, " " ++ ("+" ++ (" " ++ s)) = " + " ++ s := fun _ => rfl
  have h2 : ∀ s : String, " " ++ ("~" ++ (" " ++ s)) = " ~ " ++ s := fun _ => rfl
  have h3 : ∀ s : String, " " ++ (" " ++ (" " ++ s)) = "   " ++ s := fun _ => rfl
  simp only [cssSelectorBuilder.combine, Check.stringify, Check.new, String.append_assoc,
    h1, h2, h3]

/-- C7: the recorded rank list of the builder a chain reaches is
non-decreasing exactly when no call of the chain threw the out-of-order
message; in particular every successful chain leaves a non-decreasing rank
list, so ordering is enforced at each call, not deferred to stringify. -/
theorem order_chain_iff_no_error (fs : List Frag) :
    ((runFrags Check.empty fs).1.order.Chain' (· ≤ ·) ↔
      (runFrags Check.empty fs).2 ≠ some orderMsg) :=
  runFrags_chain_iff fs Check.empty (by simp [Check.empty, Check.new])

/-- C8: `stringify()` is a pure read: in state-passing form it returns the
builder state unchanged, a repeated call returns the identical string, and
the returned value is the accumulated text; its embedding has no error
outcome because the method body cannot throw. -/
theorem stringify_pure (c : Check) :
    (c.stringifyS).2 = c ∧
    (Check.stringifyS ((c.stringifyS).2)).1 = (c.stringifyS).1 ∧
    (c.stringifyS).1 = c.stringify :=
  ⟨rfl, rfl, rfl⟩

/-- C3 counterexample: on the builder built by `element('a').id('b')`,
adding `element('c')` — a fragment of rank 0, strictly below the last rank
1 — throws the duplicate message, not the out-of-order message the claim
requires: the uniqueness guard runs before any order check. -/
theorem order_claim_counterexample :
    (runFrags Check.empty [Frag.element "a", Frag.id "b"]).2 = none ∧
    (runFrags Check.empty [Frag.element "a", Frag.id "b"]).1.order.getLast? = some 1 ∧
    Frag.rank (Frag.element "c") < 1 ∧
    (applyFrag (runFrags Check.empty [Frag.element "a", Frag.id "b"]).1
        (Frag.element "c")).2 = some dupMsg ∧
    dupMsg ≠ orderMsg := by decide

/-- C3 amended: on any builder reached by a successful chain, a fragment
whose rank is strictly below the last recorded rank throws the
out-of-order message, provided the fragment does not itself hit a
uniqueness guard (a duplicate element / id / pseudo-element throws the
duplicate message before any order check); and a fragment of rank at
least the last recorded rank never throws the out-of-order message. -/
theorem out_of_order_raises (fs : List Frag) (f : Frag) (r0 : Nat)
    (hok : (runFrags Check.empty fs).2 = none)
    (hlast : (runFrags Check.empty fs).1.order.getLast? = some r0) :
    (dupHit (runFrags Check.empty fs).1 f = false → f.rank < r0 →
      (applyFrag (runFrags Check.empty fs).1 f).2 = some orderMsg) ∧
    (r0 ≤ f.rank →
      (applyFrag (runFrags Check.empty fs).1 f).2 ≠ some orderMsg) := by
  have hchain : (runFrags Check.empty fs).1.order.Chain' (· ≤ ·) :=
    (runFrags_chain_iff fs Check.empty (by simp [Check.empty, Check.new])).mpr
      (by simp [hok])
  constructor
  · intro hd hlt
    rw [applyFrag_eq, if_neg (by simp [hd])]
    have hnc : ¬ ((runFrags Check.empty fs).1.order ++ [f.rank]).Chain' (· ≤ ·) := by
      intro hcc
      have hlink := (List.chain'_append.mp hcc).2.2 r0 (by rw [hlast]; rfl) f.rank rfl
      omega
    simp [hnc]
  · intro hge
    by_cases hd : dupHit (runFrags Check.empty fs).1 f = true
    · rw [applyFrag_eq, if_pos hd]
      simp [dupMsg_ne_orderMsg]
    · rw [applyFrag_eq, if_neg hd]
      have hcc : ((runFrags Check.empty fs).1.order ++ [f.rank]).Chain' (· ≤ ·) := by
        refine List.chain'_append.mpr ⟨hchain, List.chain'_singleton _, ?_⟩
        intro x hx y hy
        rw [hlast] at hx
        simp only [Option.mem_def, Option.some.injEq] at hx
        simp only [List.head?_cons, Option.mem_def, Option.some.injEq] at hy
        subst hx
        subst hy
        exact hge
      simp [hcc]

/-- C3 amended, witness: `class('b')` after `attr('a')` (rank 2 after
rank 3) throws the out-of-order message. -/
theorem out_of_order_raises_witness :
    (applyFrag (runFrags Check.empty [Frag.attr "a"]).1 (Frag.«class» "b")).2 = some orderMsg :=
  (out_of_order_raises [Frag.attr "a"] (Frag.«class» "b") 3 (by decide) (by decide)).1
    (by decide) (by decide)

/-- C4 counterexample: after `element('a')`, the failing second
`element('b')` throws the duplicate message but leaves the rendered string
at `"a"` — the fragment text was NOT appended before raising, contrary to
the claim. -/
theorem duplicate_mutation_counterexample :
    ((Check.empty.element "a").1.element "b").2 = some dupMsg ∧
    ((Check.empty.element "a").1.element "b").1.test = "a" ∧
    ((Check.empty.element "a").1.element "b").1.test
      ≠ (Check.empty.element "a").1.test ++ "b" := by decide

/-- C4 amended: when a duplicate-fragment violation occurs (second
element, id or pseudo-element on the same builder), the error is thrown
before any mutation: the failing call returns the builder state — rendered
string included — completely unchanged. -/
theorem duplicate_leaves_state (c : Check) (v : String) :
    (c.element1 = true → c.element v = (c, some dupMsg)) ∧
    (c.id1 = true → c.id v = (c, some dupMsg)) ∧
    (c.pseudoElement1 = true → c.pseudoElement v = (c, some dupMsg)) := by
  refine ⟨?_, ?_, ?_⟩ <;> intro h <;> simp [Check.element, Check.id, Check.pseudoElement, h]

/-- C4 amended, witness: a second `element` on a builder whose element
flag is set leaves the state untouched. -/
theorem duplicate_leaves_state_witness :
    (Check.mk "a" false true false [0]).element1 = true ∧
    (Check.mk "a" false true false [0]).element "b"
      = (Check.mk "a" false true false [0], some dupMsg) :=
  ⟨rfl, (duplicate_leaves_state (Check.mk "a" false true false [0]) "b").1 rfl⟩

/-- C9: when a fragment-adding call throws the out-of-order message, the
fragment's text has already been appended to the rendered string and its
rank pushed onto the recorded rank list before the throw, so a subsequent
`stringify()` on that builder shows the out-of-order fragment. -/
theorem out_of_order_mutates_first (c : Check) (f : Frag)
    (h : (applyFrag c f).2 = some orderMsg) :
    (applyFrag c f).1.test = c.test ++ f.render ∧
    (applyFrag c f).1.order = c.order ++ [f.rank] ∧
    (applyFrag c f).1.stringify = c.test ++ f.render := by
  rw [applyFrag_eq] at h ⊢
  by_cases hd : dupHit c f = true
  · rw [if_pos hd] at h
    simp only [Option.some.injEq] at h
    exact absurd h dupMsg_ne_orderMsg
  · rw [if_neg hd]
    simp [pushFrag, Check.stringify]

/-- C9 witness: `element('b')` after a `class` fragment throws the
out-of-order message with the element text already appended. -/
theorem out_of_order_mutates_first_witness :
    (applyFrag (Check.mk ".a" false false false [2]) (Frag.element "b")).2 = some orderMsg ∧
    (applyFrag (Check.mk ".a" false false false [2]) (Frag.element "b")).1.test
      = ".a" ++ (Frag.element "b").render :=
  ⟨by decide,
    (out_of_order_mutates_first (Check.mk ".a" false false false [2]) (Frag.element "b")
      (by decide)).1⟩

/-- C10: a builder produced by `combine` starts with all three uniqueness
flags false and an empty rank list, so every fragment-adding operation is
still callable on it and validates as on an empty builder: any single
fragment call succeeds, and in particular `element(v)` succeeds and
appends `v` directly after the composite string in the `stringify()`
output. -/
theorem combine_builder_fresh (selector1 : Check) (combinator : String) (selector2 : Check)
    (v : String) (f : Frag) :
    (cssSelectorBuilder.combine selector1 combinator selector2).element1 = false ∧
    (cssSelectorBuilder.combine selector1 combinator selector2).id1 = false ∧
    (cssSelectorBuilder.combine selector1 combinator selector2).pseudoElement1 = false ∧
    (cssSelectorBuilder.combine selector1 combinator selector2).order = [] ∧
    (applyFrag (cssSelectorBuilder.combine selector1 combinator selector2) f).2 = none ∧
    ((cssSelectorBuilder.combine selector1 combinator selector2).element v).2 = none ∧
    ((cssSelectorBuilder.combine selector1 combinator selector2).element v).1.stringify
      = (cssSelectorBuilder.combine selector1 combinator selector2).stringify ++ v := by
  refine ⟨rfl, rfl, rfl, rfl, ?_, ?_, ?_⟩
  · rw [applyFrag_eq]
    have hd : dupHit (cssSelectorBuilder.combine selector1 combinator selector2) f = false := by
      cases f <;> rfl
    rw [if_neg (by simp [hd])]
    have hc : ((cssSelectorBuilder.combine selector1 combinator selector2).order
        ++ [f.rank]).Chain' (· ≤ ·) := by
      simp [cssSelectorBuilder.combine, Check.new]
    simp [hc]
  · simp [Check.element, cssSelectorBuilder.combine, Check.new, Check.checkOrder, checkOrderAux]
  · simp [Check.element, cssSelectorBuilder.combine, Check.new, Check.checkOrder, checkOrderAux,
      Check.stringify]
